import Mathlib

/-!
Verification of the quiz session engine of the french-quiz-telegram-bot
repository.  The definitions below are a shallow embedding of the Python
sources `backend/modules/nationalities/router.py`, `backend/app.py` and
`backend/schemas.py`.  Randomness (`random.choices`, `random.shuffle`) is
modelled by explicitly passed functions; where a theorem needs the fact
that `random.shuffle` permutes its input, that fact is a hypothesis
(`∀ l, (shuf l).Perm l`).  The filesystem consulted by the audio resolver
is modelled by an abstract predicate `fileExists : String → Bool`.
Session ids (`uuid4`) and the global `SESSIONS` store are not modelled:
every operation takes the session value directly; the store lookup only
contributes the `404 Session not found` branch, about which nothing is
claimed.
-/

/-- One entry of the loaded question catalog (`load_questions` in
`router.py` builds these dicts from `questions.json`). -/
structure QDef where
  id : Nat
  default_options : Nat
  prompt_text : String
  prompt_audio : Option String
  answer : String
  country : Option String
deriving DecidableEq

/-- An answer option of a generated question (class `Option` in
`schemas.py`; `router.py` refers to it as `Card`).  `id` is the 1-based
slot number. -/
structure Card where
  id : Nat
  text : String
  audio : Option String
deriving DecidableEq

/-- A generated question (class `Question` in `schemas.py`). -/
structure Question where
  id : Nat
  prompt_text : String
  country : Option String
  prompt_audio : Option String
  options : List Card
  correct_option_id : Nat
deriving DecidableEq

/-- Per-session quiz state (class `QuizSession` in `schemas.py`).  The
Python dict `answers : question_id -> bool` is modelled as an association
list with overwriting insert; the dict `question_map : position ->
Question`, whose keys are exactly `0..n-1` by construction, is modelled
as a position-indexed list.  `session_id : UUID` is not modelled. -/
structure Session where
  user_id : String
  question_ids : List Nat
  current_index : Nat
  correct_count : Nat
  finished : Bool
  answers : List (Nat × Bool)
  question_map : List Question
deriving DecidableEq

/-- The error taxonomy of the endpoints (each is a distinct
`HTTPException` message in the source). -/
inductive QuizErr where
  | noQuestions
  | quizFinished
  | indexOutOfRange
  | notPrepared
  | invalidIndex
  | orderMismatch
  | questionNotFound
  | noCorrectOption
deriving DecidableEq

/-- Response model of `/quiz/answer` (class `AnswerOut` in
`schemas.py`, with the extra `country` field of the router variant). -/
structure AnswerOut where
  correct : Bool
  correct_option_id : Nat
  correct_option_text : String
  correct_option_audio_url : Option String
  country : Option String
  score : Nat
  index : Nat
  total : Nat
  finished : Bool
deriving DecidableEq

/-- One option as exposed by `/quiz/question` (class `OptionResponse`). -/
structure OptionResponse where
  number : Nat
  audio_url : Option String
deriving DecidableEq

/-- Response model of `/quiz/question` (class `QuestionOut`, without the
echoed `session_id`). -/
structure QuestionOut where
  index : Int
  total : Nat
  question_id : Nat
  prompt_text : String
  prompt_audio_url : Option String
  options : List OptionResponse
deriving DecidableEq

/-- Response model of `/quiz/start` (class `StartQuizOut`, without the
`session_id`). -/
structure StartQuizOut where
  total : Nat
  first_question_id : Nat
deriving DecidableEq

/-- Response model of `/quiz/summary` (class `SummaryOut`); `details`
pairs are (question_id, result). -/
structure SummaryOut where
  total : Nat
  correct_count : Nat
  details : List (String × String)
deriving DecidableEq

/-- Environment of the engine: the loaded pool (`RAW_QUESTIONS`, in
insertion order of its keys), the audio root directory name
(`Path(settings.AUDIO_OUTPUT_DIR).name`) and the filesystem existence
check used by the audio resolver. -/
structure Env where
  pool : List QDef
  rootName : String
  fileExists : String → Bool

/-- The random choices made by `start_quiz`: `choiceIdx i` is the index
into `all_ids` drawn by `random.choices` for position `i`; `shufRem pos`
and `shufOpt pos` are the two `random.shuffle` calls made while
generating the question of position `pos`. -/
structure Rng where
  choiceIdx : Nat → Nat
  shufRem : Nat → List Nat → List Nat
  shufOpt : Nat → List Nat → List Nat

/-- Overwriting insert into a Python-dict-like association list
(`session.answers[q.id] = is_correct`). -/
def dinsert : List (Nat × Bool) → Nat → Bool → List (Nat × Bool)
  | [], k, v => [(k, v)]
  | (k0, v0) :: rest, k, v =>
    if k0 = k then (k, v) :: rest else (k0, v0) :: dinsert rest k v

/-- Dict lookup (`session.answers.get(qid)`). -/
def dget : List (Nat × Bool) → Nat → Option Bool
  | [], _ => none
  | (k0, v0) :: rest, k => if k0 = k then some v0 else dget rest k

/-- Whether a key is present in the dict. -/
def hasKey (d : List (Nat × Bool)) (k : Nat) : Bool :=
  (dget d k).isSome

/-- Number of entries of the dict whose value is `true`. -/
def countTrue (d : List (Nat × Bool)) : Nat :=
  (d.filter (fun kv => kv.2)).length

/-- `Path(s).name`: the part after the last slash. -/
def basenameOf (s : String) : String :=
  (s.splitOn "/").getLastD s

/-- `(Path(s).stem, Path(s).suffix)` of a file name without directory
part: split at the last dot, keeping Python's behaviour of an empty
suffix for dotless and leading-dot-only names. -/
def splitExt (s : String) : String × String :=
  let parts := s.splitOn "."
  match parts with
  | [] => (s, "")
  | [_] => (s, "")
  | _ =>
    let stem := String.intercalate "." parts.dropLast
    if stem = "" then (s, "") else (stem, "." ++ parts.getLastD "")

/-- The audio resolver `_audio_url` (identical in `router.py` and
`app.py`).  `env.fileExists` receives the path relative to the audio
root (`static_root / rel` existence checks). -/
def audio_url (env : Env) (path : Option String) : Option String :=
  match path with
  | none => none
  | some p =>
    if p = "" then none
    else if p.startsWith "audio/" then
      let rel := p.drop 6
      if env.fileExists rel then
        some (if env.rootName = "audio" then "/static/" ++ rel
              else "/static/audio/" ++ rel)
      else
        let se := splitExt (basenameOf rel)
        let v1 := se.1 ++ "_country" ++ se.2
        let v2 := se.1 ++ "_answer" ++ se.2
        if env.fileExists v1 then
          some (if env.rootName = "audio" then "/static/" ++ v1
                else "/static/audio/" ++ v1)
        else if env.fileExists v2 then
          some (if env.rootName = "audio" then "/static/" ++ v2
                else "/static/audio/" ++ v2)
        else if env.rootName = "audio" then some ("/static/" ++ rel)
        else some ("/static/" ++ p)
    else some p

/-- Placeholder results for lookups that cannot fail on the inputs the
claims are about. -/
def dummyQDef : QDef :=
  { id := 0, default_options := 4, prompt_text := "", prompt_audio := none,
    answer := "", country := none }

def dummyCard : Card :=
  { id := 0, text := "", audio := none }

def dummyQuestion : Question :=
  { id := 0, prompt_text := "", country := none, prompt_audio := none,
    options := [], correct_option_id := 1 }

/-- `RAW_QUESTIONS[qid]` (a `KeyError` on an absent id is modelled by the
placeholder; the engine only looks up ids drawn from the pool). -/
def lookupQ (pool : List QDef) (qid : Nat) : QDef :=
  ((pool.find? (fun r => r.id == qid)).getD dummyQDef)

/-- `RAW_QUESTIONS.get(option_qid, {}).get("answer")` (a missing id gives
the empty string instead of Python's `None`). -/
def lookupAnswer (pool : List QDef) (qid : Nat) : String :=
  ((pool.find? (fun r => r.id == qid)).map (fun r => r.answer)).getD ""

/-- The `country` field returned by `submit_answer` in `router.py`:
`RAW_QUESTIONS.get(q.id)` then `.get("country")`. -/
def countryOf (pool : List QDef) (qid : Nat) : Option String :=
  match pool.find? (fun r => r.id == qid) with
  | none => none
  | some r => r.country

/-- One option card of the router's generator: slot `i`, the looked-up
answer text, and the per-id canonical audio name (`None` when the id is
falsy, i.e. `0`). -/
def mkCard (pool : List QDef) (i oq : Nat) : Card :=
  { id := i, text := lookupAnswer pool oq,
    audio := if oq ≠ 0 then some ("audio/q" ++ Nat.repr oq ++ "_answer.mp3")
             else none }

/-- `for idx, option_qid in enumerate(option_ids, start=1): opts.append(...)`. -/
def buildCards (pool : List QDef) : List Nat → Nat → List Card
  | [], _ => []
  | oq :: rest, i => mkCard pool i oq :: buildCards pool rest (i + 1)

/-- The `correct_idx` accumulation loop: starts at `acc = 1`, records the
index of every element satisfying `p` (so it ends at the last match). -/
def lastMatchIdx (p : α → Bool) : List α → Nat → Nat → Nat
  | [], _, acc => acc
  | x :: rest, i, acc => lastMatchIdx p rest (i + 1) (if p x then i else acc)

/-- The router's option generator for one session position
(`router.py`, `start_quiz`, lines 108-140): the target id plus up to
`default_options - 1` other ids, both shuffle calls explicit. -/
def mkQuestion (pool : List QDef) (qid : Nat)
    (shufRem shufOpt : List Nat → List Nat) : Question :=
  let all_ids := pool.map (fun r => r.id)
  let r := lookupQ pool qid
  let remaining_ids := shufRem (all_ids.filter (fun other => other != qid))
  let option_ids := shufOpt (qid :: remaining_ids.take (r.default_options - 1))
  { id := qid,
    prompt_text := r.prompt_text,
    country := r.country,
    prompt_audio := r.prompt_audio,
    options := buildCards pool option_ids 1,
    correct_option_id := lastMatchIdx (fun oq => oq == qid) option_ids 1 1 }

/-- `POST /quiz/start` (`start_quiz` in `router.py`): draws
`max(1, n_questions)` ids with repetition and generates one question per
position. -/
def start_quiz (rng : Rng) (env : Env) (user_id : String)
    (n_questions : Int) : Except QuizErr (Session × StartQuizOut) :=
  let all_ids := env.pool.map (fun r => r.id)
  if all_ids.isEmpty then Except.error QuizErr.noQuestions
  else
    let n := (max 1 n_questions).toNat
    let chosen := (List.range n).map
      (fun i => all_ids.getD (rng.choiceIdx i % all_ids.length) 0)
    let qmap := (List.range n).map
      (fun pos => mkQuestion env.pool (chosen.getD pos 0)
        (rng.shufRem pos) (rng.shufOpt pos))
    Except.ok
      ({ user_id := user_id, question_ids := chosen, current_index := 0,
         correct_count := 0, finished := false, answers := [],
         question_map := qmap },
       { total := chosen.length, first_question_id := chosen.headD 0 })

/-- `GET /quiz/question/{sid}/{index}` (`get_question`): read-only view
of one position. -/
def get_question (env : Env) (s : Session) (index : Int) :
    Except QuizErr QuestionOut :=
  if s.finished then Except.error QuizErr.quizFinished
  else if 0 ≤ index ∧ index < (s.question_ids.length : Int) then
    match s.question_map.get? index.toNat with
    | none => Except.error QuizErr.notPrepared
    | some q =>
      Except.ok
        { index := index, total := s.question_ids.length,
          question_id := q.id, prompt_text := q.prompt_text,
          prompt_audio_url := audio_url env q.prompt_audio,
          options := q.options.map
            (fun opt => { number := opt.id,
                          audio_url := audio_url env opt.audio }) }
  else Except.error QuizErr.indexOutOfRange

/-- `POST /quiz/answer` (`submit_answer` in `router.py`).  The returned
pair is (session state after the call, response-or-error); the error
branches leave the state untouched, exactly as the Python code raises
before any mutation (the `noCorrectOption` branch, Python's
`StopIteration` from `next(...)`, happens after the mutation and hence
carries the mutated state). -/
def submit_answer (env : Env) (s : Session) (question_id selected : Nat) :
    Session × Except QuizErr AnswerOut :=
  if s.finished then (s, Except.error QuizErr.quizFinished)
  else if s.question_ids.length ≤ s.current_index then
    (s, Except.error QuizErr.invalidIndex)
  else if s.question_ids.getD s.current_index 0 != question_id then
    (s, Except.error QuizErr.orderMismatch)
  else
    match s.question_map.get? s.current_index with
    | none => (s, Except.error QuizErr.questionNotFound)
    | some q =>
      let is_correct : Bool := selected == q.correct_option_id
      let s2 : Session :=
        { s with
          answers := dinsert s.answers q.id is_correct,
          correct_count := if is_correct then s.correct_count + 1
                           else s.correct_count,
          current_index := s.current_index + 1,
          finished := decide (s.question_ids.length ≤ s.current_index + 1) }
      match q.options.find? (fun o => o.id == q.correct_option_id) with
      | none => (s2, Except.error QuizErr.noCorrectOption)
      | some copt =>
        (s2, Except.ok
          { correct := is_correct,
            correct_option_id := copt.id,
            correct_option_text := copt.text,
            correct_option_audio_url := audio_url env copt.audio,
            country := countryOf env.pool q.id,
            score := s2.correct_count,
            index := min s2.current_index (s.question_ids.length - 1),
            total := s.question_ids.length,
            finished := s2.finished })

/-- `GET /quiz/summary/{sid}` (`summary`): pure read;
`answers.get(qid)` being absent or `False` both read as "wrong". -/
def summary (s : Session) : SummaryOut :=
  { total := s.question_ids.length,
    correct_count := s.correct_count,
    details := s.question_ids.map
      (fun qid => (Nat.repr qid,
        if (dget s.answers qid).getD false then "correct" else "wrong")) }

/-- Runs a sequence of `submit_answer` calls against a session,
threading the state (rejected calls leave it unchanged); `get_question`
and `summary` are read-only, so every state a session reaches during its
lifetime is of this shape. -/
def runSubmits (env : Env) (s : Session) : List (Nat × Nat) → Session
  | [] => s
  | (qid, slot) :: rest => runSubmits env (submit_answer env s qid slot).1 rest

/-- Extracts the session produced by a successful `start_quiz`. -/
def startedSession (rng : Rng) (env : Env) (uid : String) (n : Int) :
    Session :=
  match start_quiz rng env uid n with
  | Except.ok (s, _) => s
  | Except.error _ =>
    { user_id := "", question_ids := [], current_index := 0,
      correct_count := 0, finished := false, answers := [],
      question_map := [] }

/-- The `.ok` payload of a submit result, `none` when it was rejected. -/
def okPart : Except QuizErr AnswerOut → Option AnswerOut
  | Except.ok a => some a
  | Except.error _ => none

/-- The base-noun extraction of `app.py` used to build the distractor
pool (`pool.append(base)` loop in its `start_quiz`). -/
def baseOf (ans : String) : String :=
  if ans.startsWith "un " ∧ (ans.splitOn " et").length > 1 then
    (((ans.drop 3).splitOn " et").headD "").trim
  else
    let parts := (ans.splitOn " ").filter (fun w => w != "")
    if parts.length > 1 then parts.getD 1 "" else parts.getD 0 ""

/-- `app.py`'s distractor pool: one base per pool entry with a non-empty
answer. -/
def distractorPool (pool : List QDef) : List String :=
  (pool.filter (fun r => r.answer != "")).map (fun r => baseOf r.answer)

/-- The comparison key `app.py` filters candidates against:
`correct.split()[1] if len(correct.split()) > 1 else correct`. -/
def cmpBase (correct : String) : String :=
  let parts := (correct.splitOn " ").filter (fun w => w != "")
  if parts.length > 1 then parts.getD 1 "" else correct

/-- The option texts of `app.py`'s generator (its `start_quiz`, lines
309-329): the correct text, then candidates until `default_options`
texts exist, then `"{correct}_alt{i}"` padding. -/
def appOptionTexts (pool : List QDef) (correct : String) (K : Nat)
    (shufCand : List String → List String) : List String :=
  let candidates :=
    shufCand ((distractorPool pool).filter (fun p => p != cmpBase correct))
  let opts1 := correct :: (candidates.take (K - 1)).map (fun c => "un " ++ c)
  opts1 ++ (List.range (K - opts1.length)).map
    (fun i => correct ++ "_alt" ++ Nat.repr i)

/-- Cards of `app.py`'s generator: slot numbers `1..`, per-slot audio
chosen by probing `q{qid}_opt{idx}.mp3` then `.ogg`. -/
def buildTextCards (env : Env) (qid : Nat) : List String → Nat → List Card
  | [], _ => []
  | t :: rest, i =>
    { id := i, text := t,
      audio :=
        if env.fileExists ("q" ++ Nat.repr qid ++ "_opt" ++ Nat.repr i ++ ".mp3")
        then some ("audio/q" ++ Nat.repr qid ++ "_opt" ++ Nat.repr i ++ ".mp3")
        else if env.fileExists ("q" ++ Nat.repr qid ++ "_opt" ++ Nat.repr i ++ ".ogg")
        then some ("audio/q" ++ Nat.repr qid ++ "_opt" ++ Nat.repr i ++ ".ogg")
        else none } :: buildTextCards env qid rest (i + 1)

/-- One generated question of `app.py`'s generator: shuffled texts with
slot numbers and the recorded correct slot (last slot whose text equals
the correct text). -/
def mkAppQuestion (env : Env) (qid : Nat) (correct : String) (K : Nat)
    (shufCand shufO : List String → List String) : List Card × Nat :=
  let enumerated := shufO (appOptionTexts env.pool correct K shufCand)
  (buildTextCards env qid enumerated 1,
   lastMatchIdx (fun t => t == correct) enumerated 1 1)

/-- Concrete fixtures used by witnesses and counterexamples. -/
def qd1 : QDef :=
  { id := 1, default_options := 4, prompt_text := "P1",
    prompt_audio := none, answer := "A1", country := some "C1" }

def qd2 : QDef :=
  { id := 2, default_options := 4, prompt_text := "P2",
    prompt_audio := none, answer := "A2", country := none }

def pool1 : List QDef := [qd1]

def pool2 : List QDef := [qd1, qd2]

def env1 : Env :=
  { pool := pool1, rootName := "audio", fileExists := fun _ => false }

def env2 : Env :=
  { pool := pool2, rootName := "audio", fileExists := fun _ => false }

def envEmpty : Env :=
  { pool := [], rootName := "audio", fileExists := fun _ => false }

def rng0 : Rng :=
  { choiceIdx := fun _ => 0, shufRem := fun _ l => l, shufOpt := fun _ l => l }

def rngSeq : Rng :=
  { choiceIdx := fun i => i, shufRem := fun _ l => l, shufOpt := fun _ l => l }

def st1 : Session := startedSession rng0 env1 "u" 1

def qA : Question := st1.question_map.getD 0 dummyQuestion

def coptA : Card :=
  (qA.options.find? (fun o => o.id == qA.correct_option_id)).getD dummyCard

/-- The inductive session invariant: the score never exceeds the
position, the position never exceeds the pick count, the finished flag
holds exactly at the end, every prepared question's id matches the pick
at its position, and (when the picks are pairwise distinct) the score
coincides with the number of `true` entries of the answer log, whose
keys are exactly the already-answered picks. -/
def WFsession (s : Session) : Prop :=
  s.correct_count ≤ s.current_index ∧
  s.current_index ≤ s.question_ids.length ∧
  (s.finished = true ↔ s.current_index = s.question_ids.length) ∧
  (∀ pos q, s.question_map.get? pos = some q →
    q.id = s.question_ids.getD pos 0) ∧
  (s.question_ids.Nodup →
    countTrue s.answers = s.correct_count ∧
    ∀ k, hasKey s.answers k = true ↔ k ∈ s.question_ids.take s.current_index)

/-- C5: an answer for a question id other than the one at
`currentPosition` of an unfinished session is rejected with the
order-mismatch error and the session state is returned unchanged; the
engine compares only against the id at `currentPosition`, never
searching `picks` for another occurrence. -/
theorem submit_answer_order_mismatch (env : Env) (s : Session)
    (qid slot : Nat)
    (hfin : s.finished = false)
    (hci : s.current_index < s.question_ids.length)
    (hne : s.question_ids.getD s.current_index 0 ≠ qid) :
    submit_answer env s qid slot = (s, Except.error QuizErr.orderMismatch) := by
  have h1 : ¬ (s.finished = true) := by simp [hfin]
  have h2 : ¬ (s.question_ids.length ≤ s.current_index) := Nat.not_le.mpr hci
  have h3 : (s.question_ids.getD s.current_index 0 != qid) = true :=
    bne_iff_ne.mpr hne
  unfold submit_answer
  rw [if_neg h1, if_neg h2, if_pos h3]

/-- Witness for C5 on a concrete one-question session. -/
theorem submit_answer_order_mismatch_witness :
    submit_answer env1 st1 2 1 = (st1, Except.error QuizErr.orderMismatch) :=
  submit_answer_order_mismatch env1 st1 2 1 (by decide) (by decide) (by decide)

/-- C6: once `finished = true`, every `getQuestion` and every
`submitAnswer` call fails with the session-finished error, and
`submitAnswer` returns the session state unchanged (`getQuestion` never
mutates by construction), so no transition leaves the finished state. -/
theorem finished_is_terminal (env : Env) (s : Session)
    (hf : s.finished = true) :
    (∀ idx : Int, get_question env s idx = Except.error QuizErr.quizFinished) ∧
    (∀ qid slot : Nat,
      submit_answer env s qid slot = (s, Except.error QuizErr.quizFinished)) := by
  constructor
  · intro idx
    simp [get_question, hf]
  · intro qid slot
    simp [submit_answer, hf]

/-- Witness for C6 on a concrete finished session. -/
theorem finished_is_terminal_witness :
    get_question env1 (runSubmits env1 st1 [(1, 1)]) 0 =
      Except.error QuizErr.quizFinished ∧
    submit_answer env1 (runSubmits env1 st1 [(1, 1)]) 1 1 =
      (runSubmits env1 st1 [(1, 1)], Except.error QuizErr.quizFinished) :=
  ⟨(finished_is_terminal env1 (runSubmits env1 st1 [(1, 1)]) (by decide)).1 0,
   (finished_is_terminal env1 (runSubmits env1 st1 [(1, 1)]) (by decide)).2 1 1⟩

/-- C7: the audio resolver maps an absent or empty reference to `none`
(and, being a total function, never raises); when nothing exists on the
backing store, any non-empty reference still resolves to a best-effort
URL rather than an error. -/
theorem audio_url_total_best_effort (env : Env) :
    audio_url env none = none ∧
    audio_url env (some "") = none ∧
    ∀ p : String, p ≠ "" → (∀ x, env.fileExists x = false) →
      (audio_url env (some p)).isSome = true := by
  refine ⟨rfl, rfl, ?_⟩
  intro p hp hfs
  simp only [audio_url]
  rw [if_neg hp]
  by_cases hpre : p.startsWith "audio/" = true
  · rw [if_pos hpre]
    simp only [hfs, Bool.false_eq_true, if_false]
    by_cases hr : env.rootName = "audio" <;> simp [hr]
  · rw [if_neg hpre]
    rfl

/-- Witness for C7 on a filesystem with no files. -/
theorem audio_url_total_best_effort_witness :
    audio_url env1 none = none ∧
    audio_url env1 (some "") = none ∧
    (audio_url env1 (some "audio/x.mp3")).isSome = true :=
  ⟨(audio_url_total_best_effort env1).1,
   (audio_url_total_best_effort env1).2.1,
   (audio_url_total_best_effort env1).2.2 "audio/x.mp3" (by decide)
     (fun _ => rfl)⟩

/-- C2 counterexample: on a concrete active session whose current
question has options with slot numbers `1..1`, submitting slot `99`
(outside the generated option set) is accepted (`.ok`) with
`correct = false` instead of being rejected with an error. -/
theorem submit_answer_bad_slot_cex :
    (okPart (submit_answer env1 st1 1 99).2).map (fun o => o.correct) =
      some false ∧
    (st1.question_map.getD 0 dummyQuestion).options.map (fun c => c.id) = [1] ∧
    ¬ (1 ≤ 99 ∧ 99 ≤ (st1.question_map.getD 0 dummyQuestion).options.length) := by
  decide

/-- C2 amended: a `submitAnswer` whose `questionId` matches the current
position but whose `selectedSlot` lies outside `1..K` (the generated
slot numbers) is accepted, not rejected: the call returns `.ok` with
`correct = false`, since the correct slot always lies inside `1..K`. -/
theorem submit_answer_bad_slot_accepted (env : Env) (s : Session)
    (qid slot : Nat) (q : Question) (copt : Card)
    (hfin : s.finished = false)
    (hci : s.current_index < s.question_ids.length)
    (hqid : s.question_ids.getD s.current_index 0 = qid)
    (hq : s.question_map.get? s.current_index = some q)
    (hfind : q.options.find? (fun o => o.id == q.correct_option_id) = some copt)
    (hlow : 1 ≤ q.correct_option_id)
    (hhigh : q.correct_option_id ≤ q.options.length)
    (hslot : slot = 0 ∨ q.options.length < slot) :
    ∃ s2 out, submit_answer env s qid slot = (s2, Except.ok out) ∧
      out.correct = false := by
  have h1 : ¬ (s.finished = true) := by simp [hfin]
  have h2 : ¬ (s.question_ids.length ≤ s.current_index) := Nat.not_le.mpr hci
  have h3 : ¬ ((s.question_ids.getD s.current_index 0 != qid) = true) := by
    rw [hqid]
    simp
  have hne : slot ≠ q.correct_option_id := by omega
  unfold submit_answer
  rw [if_neg h1, if_neg h2, if_neg h3, hq]
  dsimp only
  rw [hfind]
  dsimp only
  refine ⟨_, _, rfl, ?_⟩
  simpa using hne

/-- Witness for the amended C2 on the concrete session of the
counterexample. -/
theorem submit_answer_bad_slot_accepted_witness :
    ∃ s2 out, submit_answer env1 st1 1 99 = (s2, Except.ok out) ∧
      out.correct = false :=
  submit_answer_bad_slot_accepted env1 st1 1 99 qA coptA (by decide)
    (by decide) (by decide) (by decide) (by decide) (by decide) (by decide)
    (Or.inr (by decide))

/-- C8: an accepted `submitAnswer` returns `.ok` with whether the answer
was correct, the correct slot (the found correct option's slot, which
equals `correct_option_id`), its text and resolved audio, and the
post-increment position `min(currentPosition + 1, len(picks) - 1)`,
which is the incremented position while unfinished and is clamped to the
last valid index when the session has just finished. -/
theorem submit_answer_accepted_outcome (env : Env) (s : Session)
    (qid slot : Nat) (q : Question) (copt : Card)
    (hfin : s.finished = false)
    (hci : s.current_index < s.question_ids.length)
    (hqid : s.question_ids.getD s.current_index 0 = qid)
    (hq : s.question_map.get? s.current_index = some q)
    (hfind : q.options.find? (fun o => o.id == q.correct_option_id) = some copt) :
    (∃ s2, submit_answer env s qid slot = (s2, Except.ok
      { correct := slot == q.correct_option_id,
        correct_option_id := copt.id,
        correct_option_text := copt.text,
        correct_option_audio_url := audio_url env copt.audio,
        country := countryOf env.pool q.id,
        score := if slot == q.correct_option_id then s.correct_count + 1
                 else s.correct_count,
        index := min (s.current_index + 1) (s.question_ids.length - 1),
        total := s.question_ids.length,
        finished := decide (s.question_ids.length ≤ s.current_index + 1) })) ∧
    copt.id = q.correct_option_id ∧
    (s.current_index + 1 < s.question_ids.length →
      min (s.current_index + 1) (s.question_ids.length - 1) =
        s.current_index + 1) ∧
    (s.current_index + 1 = s.question_ids.length →
      min (s.current_index + 1) (s.question_ids.length - 1) =
        s.question_ids.length - 1) := by
  have h1 : ¬ (s.finished = true) := by simp [hfin]
  have h2 : ¬ (s.question_ids.length ≤ s.current_index) := Nat.not_le.mpr hci
  have h3 : ¬ ((s.question_ids.getD s.current_index 0 != qid) = true) := by
    rw [hqid]
    simp
  refine ⟨?_, ?_, ?_, ?_⟩
  · unfold submit_answer
    rw [if_neg h1, if_neg h2, if_neg h3, hq]
    dsimp only
    rw [hfind]
    exact ⟨_, rfl⟩
  · have hp := List.find?_some hfind
    simpa using hp
  · intro h
    exact Nat.min_eq_left (by omega)
  · intro h
    exact Nat.min_eq_right (by omega)

/-- Witness for C8 on a concrete accepted call (one-question session,
correct slot submitted, session finishes and the index clamps to 0). -/
theorem submit_answer_accepted_outcome_witness :
    (∃ s2, submit_answer env1 st1 1 1 = (s2, Except.ok
      { correct := 1 == qA.correct_option_id,
        correct_option_id := coptA.id,
        correct_option_text := coptA.text,
        correct_option_audio_url := audio_url env1 coptA.audio,
        country := countryOf env1.pool qA.id,
        score := if 1 == qA.correct_option_id then st1.correct_count + 1
                 else st1.correct_count,
        index := min (st1.current_index + 1) (st1.question_ids.length - 1),
        total := st1.question_ids.length,
        finished := decide (st1.question_ids.length ≤ st1.current_index + 1) })) ∧
    coptA.id = qA.correct_option_id ∧
    (st1.current_index + 1 < st1.question_ids.length →
      min (st1.current_index + 1) (st1.question_ids.length - 1) =
        st1.current_index + 1) ∧
    (st1.current_index + 1 = st1.question_ids.length →
      min (st1.current_index + 1) (st1.question_ids.length - 1) =
        st1.question_ids.length - 1) :=
  submit_answer_accepted_outcome env1 st1 1 1 qA coptA (by decide) (by decide)
    (by decide) (by decide) (by decide)

/-- Helper: an element read at an index reduced modulo the length of a
non-empty list is a member of the list. -/
theorem getD_mod_mem (l : List Nat) (h : l ≠ []) (k d : Nat) :
    l.getD (k % l.length) d ∈ l := by
  have hlen : 0 < l.length := List.length_pos.mpr h
  have hm : k % l.length < l.length := Nat.mod_lt _ hlen
  rw [List.getD_eq_getElem l d hm]
  exact List.getElem_mem hm

/-- C3: `start` fails with the no-questions error exactly when the pool
is empty; otherwise it succeeds with a session whose pick sequence has
exactly `max 1 n` entries, each of which is an id present in the pool
(repetitions allowed, nothing here forbids them). -/
theorem start_quiz_spec (rng : Rng) (env : Env) (uid : String) (n : Int) :
    (env.pool = [] → start_quiz rng env uid n = Except.error QuizErr.noQuestions) ∧
    (env.pool ≠ [] → ∃ s out, start_quiz rng env uid n = Except.ok (s, out) ∧
      (s.question_ids.length : Int) = max 1 n ∧
      ∀ q ∈ s.question_ids, q ∈ env.pool.map (fun r => r.id)) := by
  constructor
  · intro h
    simp [start_quiz, h]
  · intro h
    have hne : ¬ ((env.pool.map (fun r => r.id)).isEmpty = true) := by
      simp [h]
    unfold start_quiz
    rw [if_neg hne]
    refine ⟨_, _, rfl, ?_, ?_⟩
    · simp only [List.length_map, List.length_range]
      have hnn : (0 : Int) ≤ max 1 n := le_trans (by norm_num) (le_max_left 1 n)
      exact Int.toNat_of_nonneg hnn
    · intro q hq
      simp only [List.mem_map, List.mem_range] at hq
      obtain ⟨i, _, rfl⟩ := hq
      exact getD_mod_mem _ (by simp [h]) _ _

/-- Witness for C3: the empty pool fails, a one-question pool started
with `n = 3` yields three picks from the pool. -/
theorem start_quiz_spec_witness :
    start_quiz rng0 envEmpty "u" 3 = Except.error QuizErr.noQuestions ∧
    (∃ s out, start_quiz rng0 env1 "u" 3 = Except.ok (s, out) ∧
      (s.question_ids.length : Int) = max 1 3 ∧
      ∀ q ∈ s.question_ids, q ∈ env1.pool.map (fun r => r.id)) :=
  ⟨(start_quiz_spec rng0 envEmpty "u" 3).1 rfl,
   (start_quiz_spec rng0 env1 "u" 3).2 (by decide)⟩

/-- Helper: the `correct_idx` loop leaves its accumulator untouched when
nothing matches. -/
theorem lastMatchIdx_of_none {α : Type} (p : α → Bool) (l : List α)
    (h : ∀ x ∈ l, p x = false) :
    ∀ i acc, lastMatchIdx p l i acc = acc := by
  induction l with
  | nil => intro i acc; rfl
  | cons x xs ih =>
    intro i acc
    have hx : p x = false := h x (by simp)
    simp only [lastMatchIdx, hx, Bool.false_eq_true, if_false]
    exact ih (fun y hy => h y (by simp [hy])) (i + 1) acc

/-- Helper: when the part after some matching element contains no
further match, the `correct_idx` loop returns that element's 1-based
position. -/
theorem lastMatchIdx_append {α : Type} (p : α → Bool) (a : α) (l₁ l₂ : List α)
    (hpa : p a = true) (h2 : ∀ x ∈ l₂, p x = false) :
    ∀ i acc, lastMatchIdx p (l₁ ++ a :: l₂) i acc = i + l₁.length := by
  induction l₁ with
  | nil =>
    intro i acc
    simp only [List.nil_append, lastMatchIdx, hpa, if_true]
    rw [lastMatchIdx_of_none p l₂ h2]
    simp
  | cons b bs ih =>
    intro i acc
    simp only [List.cons_append, lastMatchIdx, List.append_eq]
    rw [ih (i + 1) _]
    simp only [List.length_cons]
    omega

/-- Helper: slot numbers produced by `buildCards` starting at `i` are at
least `i`. -/
theorem buildCards_id_ge (pool : List QDef) :
    ∀ (l : List Nat) (i : Nat), ∀ c ∈ buildCards pool l i, i ≤ c.id := by
  intro l
  induction l with
  | nil => intro i c hc; simp [buildCards] at hc
  | cons x xs ih =>
    intro i c hc
    simp only [buildCards, List.mem_cons] at hc
    rcases hc with h | h
    · subst h; simp [mkCard]
    · exact le_trans (Nat.le_succ i) (ih (i + 1) c h)

/-- Helper: filtering the generated cards by one in-range slot number
yields exactly the card built for that position. -/
theorem buildCards_filter (pool : List QDef) :
    ∀ (l : List Nat) (i j : Nat), j < l.length →
      (buildCards pool l i).filter (fun c => c.id == i + j) =
        [mkCard pool (i + j) (l.getD j 0)] := by
  intro l
  induction l with
  | nil => intro i j hj; simp at hj
  | cons x xs ih =>
    intro i j hj
    cases j with
    | zero =>
      have hid : ((mkCard pool i x).id == i + 0) = true := by simp [mkCard]
      have hrest :
          (buildCards pool xs (i + 1)).filter (fun c => c.id == i + 0) = [] := by
        rw [List.filter_eq_nil_iff]
        intro c hc
        have hge := buildCards_id_ge pool xs (i + 1) c hc
        intro hbeq
        have hceq : c.id = i + 0 := eq_of_beq hbeq
        omega
      simp only [buildCards, List.filter_cons, hid, if_true, hrest,
        List.getD_cons_zero]
      rfl
    | succ j2 =>
      have hj2 : j2 < xs.length := by simpa using hj
      have hid : ((mkCard pool i x).id == i + (j2 + 1)) = false := by
        rw [beq_eq_false_iff_ne]
        simp only [mkCard]
        omega
      have hstep := ih (i + 1) j2 hj2
      simp only [buildCards, List.filter_cons, hid, Bool.false_eq_true,
        if_false, List.getD_cons_succ]
      rw [show i + (j2 + 1) = (i + 1) + j2 from by omega]
      exact hstep

/-- Helper: reading the element at the split position of a
decomposition `l₁ ++ a :: l₂`. -/
theorem getD_append_cons (l₁ l₂ : List Nat) (a d : Nat) :
    (l₁ ++ a :: l₂).getD l₁.length d = a := by
  induction l₁ with
  | nil => rfl
  | cons x xs ih => simpa using ih

/-- Helper: in a pool with pairwise distinct ids, `find?` by a member's
id returns exactly that member. -/
theorem find?_id_self (pool : List QDef) (qd : QDef)
    (hnd : (pool.map (fun r => r.id)).Nodup) (hmem : qd ∈ pool) :
    pool.find? (fun r => r.id == qd.id) = some qd := by
  induction pool with
  | nil => simp at hmem
  | cons p ps ih =>
    simp only [List.map_cons, List.nodup_cons] at hnd
    rcases List.mem_cons.mp hmem with h | h
    · subst h
      exact List.find?_cons_of_pos _ (by simp)
    · by_cases hpq : (p.id == qd.id) = true
      · exfalso
        have hpe : p.id = qd.id := eq_of_beq hpq
        exact hnd.1 (hpe ▸ List.mem_map.mpr ⟨qd, h, rfl⟩)
      · rw [List.find?_cons_of_neg _ (by simpa using hpq)]
        exact ih hnd.2 h

/-- Helper: the dict-style answer lookup of a member of a
distinct-id pool. -/
theorem lookupAnswer_eq (pool : List QDef) (qd : QDef)
    (hnd : (pool.map (fun r => r.id)).Nodup) (hmem : qd ∈ pool) :
    lookupAnswer pool qd.id = qd.answer := by
  unfold lookupAnswer
  rw [find?_id_self pool qd hnd hmem]
  rfl

/-- Helper: for any option-id list containing the target id exactly
once, the generated cards have exactly one card at the recorded correct
slot, and its text is the target's looked-up answer. -/
theorem buildCards_correct_slot (pool : List QDef) (a : Nat) (oids : List Nat)
    (hc : List.count a oids = 1) :
    ((buildCards pool oids 1).filter
      (fun c => c.id == lastMatchIdx (fun oq => oq == a) oids 1 1)).map
      (fun c => c.text) = [lookupAnswer pool a] := by
  have hmem : a ∈ oids := List.count_pos_iff.mp (by omega)
  obtain ⟨l₁, l₂, rfl⟩ := List.append_of_mem hmem
  have h2 : List.count a l₂ = 0 := by
    rw [List.count_append, List.count_cons_self] at hc
    omega
  have h2f : ∀ x ∈ l₂, (x == a) = false := by
    intro x hx
    rw [beq_eq_false_iff_ne]
    intro hxa
    subst hxa
    exact absurd hx (List.count_eq_zero.mp h2)
  have hlast : lastMatchIdx (fun oq => oq == a) (l₁ ++ a :: l₂) 1 1 =
      1 + l₁.length :=
    lastMatchIdx_append _ a l₁ l₂ (by simp) h2f 1 1
  have hjlt : l₁.length < (l₁ ++ a :: l₂).length := by
    simp only [List.length_append, List.length_cons]
    omega
  rw [hlast, buildCards_filter pool (l₁ ++ a :: l₂) 1 l₁.length hjlt,
    getD_append_cons l₁ l₂ a 0]
  rfl

/-- C4: for every question generated by the router's option generator
from a pool with distinct ids, under the (true of `random.shuffle`)
assumption that both shuffles permute their input, exactly one option
carries the recorded correct slot number, and that option's text is the
source question's answer text. -/
theorem generated_question_one_correct_option (pool : List QDef) (qd : QDef)
    (shufRem shufOpt : List Nat → List Nat)
    (hnd : (pool.map (fun r => r.id)).Nodup) (hmem : qd ∈ pool)
    (hp1 : ∀ l, (shufRem l).Perm l) (hp2 : ∀ l, (shufOpt l).Perm l) :
    ((mkQuestion pool qd.id shufRem shufOpt).options.filter
      (fun c => c.id ==
        (mkQuestion pool qd.id shufRem shufOpt).correct_option_id)).map
      (fun c => c.text) = [qd.answer] := by
  have hF : qd.id ∉ (pool.map (fun r => r.id)).filter
      (fun other => other != qd.id) := by
    intro hin
    have := (List.mem_filter.mp hin).2
    simp at this
  have hcF : List.count qd.id ((pool.map (fun r => r.id)).filter
      (fun other => other != qd.id)) = 0 :=
    List.count_eq_zero.mpr hF
  have hcS : List.count qd.id (shufRem ((pool.map (fun r => r.id)).filter
      (fun other => other != qd.id))) = 0 := by
    rw [(hp1 _).count_eq]
    exact hcF
  have hcT : List.count qd.id ((shufRem ((pool.map (fun r => r.id)).filter
      (fun other => other != qd.id))).take
        ((lookupQ pool qd.id).default_options - 1)) = 0 := by
    have hle := List.Sublist.count_le
      (List.take_sublist ((lookupQ pool qd.id).default_options - 1)
        (shufRem ((pool.map (fun r => r.id)).filter
          (fun other => other != qd.id)))) qd.id
    omega
  have hcO : List.count qd.id (shufOpt (qd.id ::
      (shufRem ((pool.map (fun r => r.id)).filter
        (fun other => other != qd.id))).take
          ((lookupQ pool qd.id).default_options - 1))) = 1 := by
    rw [(hp2 _).count_eq, List.count_cons_self, hcT]
  have key := buildCards_correct_slot pool qd.id _ hcO
  rw [lookupAnswer_eq pool qd hnd hmem] at key
  exact key

/-- Witness for C4 on the concrete two-question pool with identity
shuffles. -/
theorem generated_question_one_correct_option_witness :
    ((mkQuestion pool2 qd1.id (fun l => l) (fun l => l)).options.filter
      (fun c => c.id ==
        (mkQuestion pool2 qd1.id (fun l => l) (fun l => l)).correct_option_id)).map
      (fun c => c.text) = [qd1.answer] :=
  generated_question_one_correct_option pool2 qd1 (fun l => l) (fun l => l)
    (by decide) (by decide) (fun l => List.Perm.refl l)
    (fun l => List.Perm.refl l)

/-- Helper: `buildTextCards` produces one card per text. -/
theorem buildTextCards_length (env : Env) (qid : Nat) :
    ∀ (l : List String) (i : Nat), (buildTextCards env qid l i).length = l.length := by
  intro l
  induction l with
  | nil => intro i; rfl
  | cons t ts ih => intro i; simp [buildTextCards, ih]

/-- Helper: the texts of the cards built by `buildTextCards` are exactly
the input texts. -/
theorem buildTextCards_texts (env : Env) (qid : Nat) :
    ∀ (l : List String) (i : Nat),
      (buildTextCards env qid l i).map (fun c => c.text) = l := by
  intro l
  induction l with
  | nil => intro i; rfl
  | cons t ts ih => intro i; simp [buildTextCards, ih]

/-- Helper: for any desired count `K ≥ 1`, the option texts of
`app.py`'s generator have exactly `K` entries (the `while` padding loop
makes up any shortfall). -/
theorem appOptionTexts_length (pool : List QDef) (correct : String) (K : Nat)
    (shufCand : List String → List String) (hK : 1 ≤ K) :
    (appOptionTexts pool correct K shufCand).length = K := by
  simp only [appOptionTexts, List.length_append, List.length_cons,
    List.length_map, List.length_range, List.length_take]
  have hm := Nat.min_le_left (K - 1)
    (shufCand (List.filter (fun p => p != cmpBase correct)
      (distractorPool pool))).length
  omega

/-- Helper: when the pool is smaller than `K - 1`, the first padding
text `correct ++ "_alt0"` occurs among the generated option texts. -/
theorem appOptionTexts_pad_mem (pool : List QDef) (correct : String) (K : Nat)
    (shufCand : List String → List String)
    (hperm : ∀ l, (shufCand l).Perm l) (hlt : pool.length + 1 < K) :
    (correct ++ "_alt" ++ Nat.repr 0) ∈ appOptionTexts pool correct K shufCand := by
  have hclen : (shufCand (List.filter (fun p => p != cmpBase correct)
      (distractorPool pool))).length ≤ pool.length := by
    rw [(hperm _).length_eq]
    calc (List.filter (fun p => p != cmpBase correct)
            (distractorPool pool)).length
        ≤ (distractorPool pool).length := List.length_filter_le _ _
      _ ≤ pool.length := by
          simp only [distractorPool, List.length_map]
          exact List.length_filter_le _ _
  simp only [appOptionTexts, List.mem_append]
  right
  refine List.mem_map.mpr ⟨0, List.mem_range.mpr ?_, rfl⟩
  simp only [List.length_cons, List.length_map, List.length_take]
  have hm := Nat.min_le_right (K - 1)
    (shufCand (List.filter (fun p => p != cmpBase correct)
      (distractorPool pool))).length
  omega

/-- C9 counterexample: the router's option generator (`router.py`,
`start_quiz`) does not pad.  On a pool with a single question id and
`default_options = 4` (fewer distinct ids than the desired option count)
it produces exactly 1 option, not 4. -/
theorem router_generator_no_padding_cex :
    (mkQuestion pool1 1 (fun l => l) (fun l => l)).options.length = 1 ∧
    ¬ (mkQuestion pool1 1 (fun l => l) (fun l => l)).options.length =
        (lookupQ pool1 1).default_options ∧
    (pool1.map (fun r => r.id)).length < (lookupQ pool1 1).default_options := by
  decide

/-- C9 amended: it is `app.py`'s option generator that degrades
gracefully: for every desired count `K ≥ 1` it produces exactly `K`
options, and when the pool is smaller than `K - 1` the shortfall is
padded with the target's own answer text carrying the disambiguating
suffix `_alt{i}`; the router's generator instead produces
`min(K, poolSize)` options with no padding. -/
theorem app_generator_pads (env : Env) (qid : Nat) (correct : String)
    (K : Nat) (shufCand shufO : List String → List String)
    (hK : 1 ≤ K)
    (hpc : ∀ l, (shufCand l).Perm l) (hpo : ∀ l, (shufO l).Perm l) :
    (mkAppQuestion env qid correct K shufCand shufO).1.length = K ∧
    (env.pool.length + 1 < K →
      (correct ++ "_alt" ++ Nat.repr 0) ∈
        (mkAppQuestion env qid correct K shufCand shufO).1.map
          (fun c => c.text)) := by
  constructor
  · show (buildTextCards env qid
      (shufO (appOptionTexts env.pool correct K shufCand)) 1).length = K
    rw [buildTextCards_length, (hpo _).length_eq,
      appOptionTexts_length env.pool correct K shufCand hK]
  · intro hlt
    show (correct ++ "_alt" ++ Nat.repr 0) ∈
      (buildTextCards env qid
        (shufO (appOptionTexts env.pool correct K shufCand)) 1).map
        (fun c => c.text)
    rw [buildTextCards_texts]
    exact ((hpo _).mem_iff).mpr
      (appOptionTexts_pad_mem env.pool correct K shufCand hpc hlt)

/-- Witness for the amended C9: a one-question pool with `K = 4` yields
four options including the `_alt0`-padded answer text. -/
theorem app_generator_pads_witness :
    (mkAppQuestion env1 1 "A1" 4 (fun l => l) (fun l => l)).1.length = 4 ∧
    ("A1" ++ "_alt" ++ Nat.repr 0) ∈
      (mkAppQuestion env1 1 "A1" 4 (fun l => l) (fun l => l)).1.map
        (fun c => c.text) := by
  have h := app_generator_pads env1 1 "A1" 4 (fun l => l) (fun l => l)
    (by decide) (fun l => List.Perm.refl l) (fun l => List.Perm.refl l)
  exact ⟨h.1, h.2 (by decide)⟩

/-- Helper: inserting a fresh key into the dict appends the pair. -/
theorem dinsert_fresh (d : List (Nat × Bool)) (k : Nat) (v : Bool)
    (h : hasKey d k = false) : dinsert d k v = d ++ [(k, v)] := by
  induction d with
  | nil => rfl
  | cons kv rest ih =>
    obtain ⟨k0, v0⟩ := kv
    by_cases hk : k0 = k
    · exfalso
      simp only [hasKey, dget, if_pos hk] at h
      cases h
    · have hrest : hasKey rest k = false := by
        simpa only [hasKey, dget, if_neg hk] using h
      simp only [dinsert, if_neg hk, List.cons_append, ih hrest]

/-- Helper: counting true values after appending one entry. -/
theorem countTrue_append_single (d : List (Nat × Bool)) (k : Nat) (v : Bool) :
    countTrue (d ++ [(k, v)]) = countTrue d + (if v then 1 else 0) := by
  simp only [countTrue, List.filter_append, List.length_append]
  cases v <;> simp [List.filter]

/-- Helper: lookup after an overwriting insert. -/
theorem dget_dinsert (d : List (Nat × Bool)) (k k2 : Nat) (v : Bool) :
    dget (dinsert d k v) k2 = if k = k2 then some v else dget d k2 := by
  induction d with
  | nil => rfl
  | cons kv rest ih =>
    obtain ⟨k0, v0⟩ := kv
    by_cases hk : k0 = k
    · subst hk
      simp only [dinsert, if_pos rfl, dget]
      by_cases h2 : k0 = k2
      · simp [h2]
      · simp [h2]
    · simp only [dinsert, if_neg hk, dget]
      by_cases h2 : k0 = k2
      · have hk2 : ¬ (k = k2) := fun hh => hk (hh ▸ h2)
        simp [h2, hk2]
      · simp only [if_neg h2, ih]

/-- Helper: key membership after an overwriting insert. -/
theorem hasKey_dinsert (d : List (Nat × Bool)) (k k2 : Nat) (v : Bool) :
    hasKey (dinsert d k v) k2 = true ↔ k2 = k ∨ hasKey d k2 = true := by
  simp only [hasKey, dget_dinsert]
  by_cases h : k = k2
  · subst h
    simp
  · rw [if_neg h]
    constructor
    · exact fun hh => Or.inr hh
    · rintro (hh | hh)
      · exact absurd hh.symm h
      · exact hh

/-- Helper: one more element of a prefix. -/
theorem take_succ_getD (l : List Nat) (i : Nat) (h : i < l.length) :
    l.take (i + 1) = l.take i ++ [l.getD i 0] := by
  rw [List.take_succ, List.getD_eq_getElem l 0 h, List.getElem?_eq_getElem h]
  rfl

/-- Helper: in a duplicate-free list the element at position `i` does
not occur before position `i`. -/
theorem getD_not_mem_take (l : List Nat) (i : Nat) (hnd : l.Nodup)
    (h : i < l.length) : l.getD i 0 ∉ l.take i := by
  intro hmem
  have hnd2 : (l.take i ++ l.drop i).Nodup := by
    rw [List.take_append_drop]; exact hnd
  rw [List.nodup_append] at hnd2
  have hdrop : l.getD i 0 ∈ l.drop i := by
    rw [List.getD_eq_getElem l 0 h, List.drop_eq_getElem_cons h]
    exact List.mem_cons_self _ _
  exact hnd2.2.2 hmem hdrop

/-- Helper: `submit_answer` never changes the pick sequence. -/
theorem submit_answer_question_ids (env : Env) (s : Session)
    (qid slot : Nat) :
    (submit_answer env s qid slot).1.question_ids = s.question_ids := by
  unfold submit_answer
  split
  · rfl
  · split
    · rfl
    · split
      · rfl
      · split
        · rfl
        · split
          · rfl
          · rfl

/-- Helper: the pick sequence is constant over a whole trace. -/
theorem runSubmits_question_ids (env : Env) :
    ∀ (trace : List (Nat × Nat)) (s : Session),
      (runSubmits env s trace).question_ids = s.question_ids := by
  intro trace
  induction trace with
  | nil => intro s; rfl
  | cons p rest ih =>
    intro s
    obtain ⟨qid, slot⟩ := p
    simp only [runSubmits]
    rw [ih, submit_answer_question_ids]

/-- Helper: a freshly started session satisfies the invariant. -/
theorem WFsession_start (rng : Rng) (env : Env) (uid : String) (n : Int)
    (s : Session) (out : StartQuizOut)
    (h : start_quiz rng env uid n = Except.ok (s, out)) : WFsession s := by
  unfold start_quiz at h
  by_cases he : ((env.pool.map (fun r => r.id)).isEmpty = true)
  · rw [if_pos he] at h
    cases h
  · rw [if_neg he] at h
    simp only [Except.ok.injEq, Prod.mk.injEq] at h
    obtain ⟨hs, _⟩ := h
    subst hs
    have hN : 1 ≤ (max 1 n).toNat := by
      have h1 := Int.toNat_le_toNat (le_max_left 1 n)
      exact h1
    refine ⟨Nat.le_refl 0, Nat.zero_le _, ?_, ?_, ?_⟩
    · simp only [List.length_map, List.length_range, Bool.false_eq_true,
        false_iff]
      omega
    · intro pos q hq
      rw [List.get?_eq_getElem?, List.getElem?_map] at hq
      by_cases hlt : pos < (max 1 n).toNat
      · rw [List.getElem?_range hlt] at hq
        simp only [Option.map_some', Option.some.injEq] at hq
        subst hq
        rfl
      · rw [List.getElem?_eq_none (by simpa using Nat.le_of_not_lt hlt)] at hq
        simp at hq
    · intro _
      refine ⟨rfl, ?_⟩
      intro k
      simp [hasKey, dget]

/-- Helper: `submit_answer` preserves the session invariant (both on
rejection, which leaves the state untouched, and on acceptance). -/
theorem WFsession_submit (env : Env) (s : Session) (qid slot : Nat)
    (hWF : WFsession s) : WFsession (submit_answer env s qid slot).1 := by
  unfold submit_answer
  by_cases hfin : s.finished = true
  · rw [if_pos hfin]; exact hWF
  · rw [if_neg hfin]
    by_cases hidx : s.question_ids.length ≤ s.current_index
    · rw [if_pos hidx]; exact hWF
    · rw [if_neg hidx]
      by_cases hqm : (s.question_ids.getD s.current_index 0 != qid) = true
      · rw [if_pos hqm]; exact hWF
      · rw [if_neg hqm]
        cases hmap : s.question_map.get? s.current_index with
        | none =>
          exact hWF
        | some q =>
          dsimp only
          have hci : s.current_index < s.question_ids.length :=
            Nat.lt_of_not_le hidx
          obtain ⟨w1, w2, w3, w4, w5⟩ := hWF
          have key : WFsession
              { s with
                answers := dinsert s.answers q.id (slot == q.correct_option_id),
                correct_count :=
                  if (slot == q.correct_option_id) = true then
                    s.correct_count + 1
                  else s.correct_count,
                current_index := s.current_index + 1,
                finished :=
                  decide (s.question_ids.length ≤ s.current_index + 1) } := by
            refine ⟨?_, ?_, ?_, ?_, ?_⟩
            · dsimp only
              split <;> omega
            · dsimp only
              omega
            · dsimp only
              simp only [decide_eq_true_eq]
              omega
            · intro pos q2 hq2
              exact w4 pos q2 hq2
            · intro hnd
              obtain ⟨wc, wk⟩ := w5 hnd
              have hqid2 : q.id = s.question_ids.getD s.current_index 0 :=
                w4 _ _ hmap
              have hfresh : hasKey s.answers q.id = false := by
                cases hhk : hasKey s.answers q.id with
                | false => rfl
                | true =>
                  exfalso
                  have hmem := (wk q.id).mp hhk
                  rw [hqid2] at hmem
                  exact getD_not_mem_take _ _ hnd hci hmem
              constructor
              · dsimp only
                rw [dinsert_fresh _ _ _ hfresh, countTrue_append_single, wc]
                split <;> omega
              · intro k
                dsimp only
                rw [hasKey_dinsert, take_succ_getD _ _ hci, wk k]
                constructor
                · rintro (hh | hh)
                  · subst hh
                    exact List.mem_append.mpr (Or.inr (by simp [hqid2]))
                  · exact List.mem_append.mpr (Or.inl hh)
                · intro hh
                  rcases List.mem_append.mp hh with hh | hh
                  · exact Or.inr hh
                  · left
                    simp only [List.mem_singleton] at hh
                    rw [hqid2]
                    exact hh
          cases hfind : q.options.find? (fun o => o.id == q.correct_option_id) with
          | none => exact key
          | some copt => exact key

/-- Helper: the invariant holds along any trace of submit calls. -/
theorem WFsession_run (env : Env) :
    ∀ (trace : List (Nat × Nat)) (s : Session), WFsession s →
      WFsession (runSubmits env s trace) := by
  intro trace
  induction trace with
  | nil => intro s h; exact h
  | cons p rest ih =>
    intro s h
    obtain ⟨qid, slot⟩ := p
    exact ih _ (WFsession_submit env s qid slot h)

/-- C10: every session, right after `start` and after every accepted or
rejected subsequent operation, satisfies
`score ≤ currentPosition ≤ len(picks)` (the lower bound `0 ≤ score` is
inherent in the `Nat` state) and `finished` holds exactly when
`currentPosition = len(picks)`. -/
theorem session_invariant (rng : Rng) (env : Env) (uid : String) (n : Int)
    (s0 : Session) (out : StartQuizOut)
    (h0 : start_quiz rng env uid n = Except.ok (s0, out))
    (trace : List (Nat × Nat)) :
    (runSubmits env s0 trace).correct_count ≤
      (runSubmits env s0 trace).current_index ∧
    (runSubmits env s0 trace).current_index ≤
      (runSubmits env s0 trace).question_ids.length ∧
    ((runSubmits env s0 trace).finished = true ↔
      (runSubmits env s0 trace).current_index =
        (runSubmits env s0 trace).question_ids.length) := by
  have h := WFsession_run env trace s0 (WFsession_start rng env uid n s0 out h0)
  exact ⟨h.1, h.2.1, h.2.2.1⟩

/-- Witness for C10 on a concrete two-pick session after one submit. -/
theorem session_invariant_witness :
    (runSubmits env1 (startedSession rng0 env1 "u" 2) [(1, 1)]).correct_count ≤
      (runSubmits env1 (startedSession rng0 env1 "u" 2) [(1, 1)]).current_index ∧
    (runSubmits env1 (startedSession rng0 env1 "u" 2) [(1, 1)]).current_index ≤
      (runSubmits env1 (startedSession rng0 env1 "u" 2) [(1, 1)]).question_ids.length ∧
    ((runSubmits env1 (startedSession rng0 env1 "u" 2) [(1, 1)]).finished = true ↔
      (runSubmits env1 (startedSession rng0 env1 "u" 2) [(1, 1)]).current_index =
        (runSubmits env1 (startedSession rng0 env1 "u" 2) [(1, 1)]).question_ids.length) :=
  session_invariant rng0 env1 "u" 2 _ _ rfl [(1, 1)]

/-- C1 counterexample: a session whose pick sequence repeats question id
1, answered correctly twice, ends with `summary().correctCount = 2`
while its answer log holds a single `true` entry (last-write-wins), so
the two quantities differ. -/
theorem summary_correct_count_cex :
    (startedSession rng0 env1 "u" 2).question_ids = [1, 1] ∧
    (summary (runSubmits env1 (startedSession rng0 env1 "u" 2)
      [(1, 1), (1, 1)])).correct_count = 2 ∧
    countTrue (runSubmits env1 (startedSession rng0 env1 "u" 2)
      [(1, 1), (1, 1)]).answers = 1 := by
  decide

/-- C1 amended: `summary().correctCount` counts accepted correct
submissions, not log entries; the two agree for every session whose pick
sequence has no repeated ids, at every point of its lifetime.  (With
repeats the counterexample shows they diverge.) -/
theorem summary_correct_count (rng : Rng) (env : Env) (uid : String) (n : Int)
    (s0 : Session) (out : StartQuizOut)
    (h0 : start_quiz rng env uid n = Except.ok (s0, out))
    (hnd : s0.question_ids.Nodup)
    (trace : List (Nat × Nat)) :
    (summary (runSubmits env s0 trace)).correct_count =
      countTrue (runSubmits env s0 trace).answers := by
  have h := WFsession_run env trace s0 (WFsession_start rng env uid n s0 out h0)
  have hnd2 : (runSubmits env s0 trace).question_ids.Nodup := by
    rw [runSubmits_question_ids]
    exact hnd
  exact ((h.2.2.2.2 hnd2).1).symm

/-- Witness for the amended C1 on a concrete repeat-free session. -/
theorem summary_correct_count_witness :
    (summary (runSubmits env2 (startedSession rngSeq env2 "u" 2)
      [(1, 1), (2, 1)])).correct_count =
      countTrue (runSubmits env2 (startedSession rngSeq env2 "u" 2)
        [(1, 1), (2, 1)]).answers :=
  summary_correct_count rngSeq env2 "u" 2 _ _ rfl (by decide) [(1, 1), (2, 1)]
